import Mathlib

/-!
Verification development for the automatic task-scheduling engine of the
flowmotion repository (class `AutoScheduler`, together with its calendar and
task types).  The engine is shallowly embedded below: every definition is a
direct translation of the corresponding TypeScript function.

Modelling conventions, fixed once for the whole file:

* Points in time are whole minutes of local time (`Nat`).  The source works
  with JavaScript `Date` values (milliseconds); every quantity the scheduler
  manipulates (durations, buffer, 15-minute steps, working-hour boundaries)
  is a whole number of minutes, so minute granularity is exact.  Day
  boundaries fall on multiples of 1440; `Date.prototype.getDay` is modelled
  with day 0 of the timeline being a Thursday, as the Unix epoch was.
  date-fns `endOfDay` (23:59:59.999) becomes the last whole minute of the
  day, 23:59.
* JavaScript numbers produced by the scoring code are modelled by `JsNum`,
  an exact fraction whose denominator is positive by construction (the
  source only ever divides by the positive constants 60, 24 and 30).
  Comparisons are by cross-multiplication, which agrees with the rational
  order when denominators are positive.
* The source's `while` loops advance a cursor by a fixed positive amount;
  they are modelled by structural recursion on a fuel bound chosen at the
  call site to exceed the possible number of iterations (fuel-stability
  lemmas below show the chosen bounds are irrelevant).
* `HH:MM` working-hour strings, which the source splits and parses with
  `parseInt`, are modelled as hour/minute fields.
-/

namespace Scheduler

/-- Exact-fraction model of a JavaScript number.  All values built by the
scheduler keep `den` positive. -/
structure JsNum where
  num : Int
  den : Int
deriving DecidableEq, Repr

/-- Embed an integer quantity. -/
def JsNum.ofInt (n : Int) : JsNum := ⟨n, 1⟩

/-- Addition (`a + b` in the source). -/
def JsNum.add (a b : JsNum) : JsNum := ⟨a.num * b.den + b.num * a.den, a.den * b.den⟩

/-- Division (`a / b` in the source; the scheduler only divides by positive
constants, so the denominator stays positive). -/
def JsNum.div (a b : JsNum) : JsNum := ⟨a.num * b.den, a.den * b.num⟩

/-- Strict comparison `a < b`, by cross-multiplication. -/
def JsNum.lt (a b : JsNum) : Bool := a.num * b.den < b.num * a.den

/-- Comparison `a <= b`, by cross-multiplication. -/
def JsNum.le (a b : JsNum) : Bool := a.num * b.den ≤ b.num * a.den

/-- `Math.min`. -/
def JsNum.min (a b : JsNum) : JsNum := if a.le b then a else b

/-- `Math.max`. -/
def JsNum.max (a b : JsNum) : JsNum := if a.le b then b else a

/-- The rational value a `JsNum` denotes. -/
def JsNum.toRat (a : JsNum) : ℚ := (a.num : ℚ) / (a.den : ℚ)

/-- Start of the calendar day containing minute `t` (local midnight). -/
def dayStart (t : Nat) : Nat := 1440 * (t / 1440)

/-- `Date.prototype.getHours`. -/
def getHours (t : Nat) : Nat := t % 1440 / 60

/-- `Date.prototype.getDay` (0 = Sunday .. 6 = Saturday); day 0 of the model
timeline is a Thursday (`4`), as the Unix epoch day was. -/
def getDay (t : Nat) : Nat := (t / 1440 + 4) % 7

/-- date-fns `endOfDay`, at minute granularity: 23:59 of the same day. -/
def endOfDay (t : Nat) : Nat := dayStart t + 1439

/-- date-fns `addMinutes`. -/
def addMinutes (t m : Nat) : Nat := t + m

/-- date-fns `addDays`. -/
def addDays (t d : Nat) : Nat := t + 1440 * d

/-- `date.setHours(h, m, 0, 0)`: same day, given time of day. -/
def setTime (t h m : Nat) : Nat := dayStart t + 60 * h + m

/-- Task priority (`'low' | 'medium' | 'high'`). -/
inductive Priority where
  | low
  | medium
  | high
deriving DecidableEq, Repr

/-- Calendar event kind (`'task' | 'meeting' | 'block' | 'break'`); `break`
is a reserved word in Lean, hence `pause`. -/
inductive EventType where
  | task
  | meeting
  | block
  | pause
deriving DecidableEq, Repr

/-- The fields of `Task` (TaskTypes.ts) that the scheduler reads.  The
remaining fields (description, category, status, updatedAt, scheduledStart,
scheduledEnd, userId, googleEventId, syncToCalendar) are never consulted by
`AutoScheduler` and are omitted. -/
structure Task where
  id : String
  title : String
  priority : Priority
  estimatedDuration : Nat
  deadline : Option Nat
  createdAt : Nat
  dependencies : Option (List String)
  isFlexible : Bool
deriving DecidableEq, Repr

/-- `CalendarEvent` (CalendarTypes.ts); the optional `color`, `description`
and `location` strings are never read by the scheduler and are omitted.
The source field `end` is a reserved word in Lean and is called `stop`. -/
structure CalendarEvent where
  id : String
  title : String
  start : Nat
  stop : Nat
  type : EventType
  taskId : Option String
  isFlexible : Bool
deriving DecidableEq, Repr

/-- `WorkingHours`; the source stores `start`/`end` as `"HH:MM"` strings and
parses them with `parseInt` on both sides of the colon — modelled as
hour/minute fields. -/
structure WorkingHours where
  startHour : Nat
  startMinute : Nat
  endHour : Nat
  endMinute : Nat
  daysOfWeek : List Nat
deriving DecidableEq, Repr

/-- `CalendarSettings`; the `timeZone` string is never read by the scheduler
and is omitted. -/
structure CalendarSettings where
  workingHours : WorkingHours
  defaultTaskDuration : Nat
  breakDuration : Nat
  bufferTime : Nat
  weekStartsOn : Nat
deriving DecidableEq, Repr

/-- `TimeSlot` (CalendarTypes.ts); the optional `conflicts` list is never
set by the scheduler and is omitted. -/
structure TimeSlot where
  start : Nat
  stop : Nat
  duration : Nat
  isAvailable : Bool
deriving DecidableEq, Repr

/-- An entry of `SchedulingResult.scheduledTasks`. -/
structure ScheduledTask where
  taskId : String
  start : Nat
  stop : Nat
  confidence : JsNum
deriving DecidableEq, Repr

/-- An entry of `SchedulingResult.conflicts`. -/
structure TaskConflict where
  taskId : String
  reason : String
  suggestedTime : Option Nat
deriving DecidableEq, Repr

/-- The `actionType` of a suggestion. -/
inductive ActionType where
  | extendHours
  | reduceTasks
  | adjustDeadlines
deriving DecidableEq, Repr

/-- An entry of `SchedulingResult.suggestions`; the `data` payload carries
the count the source stores there. -/
structure Suggestion where
  message : String
  actionType : ActionType
  data : Nat
deriving DecidableEq, Repr

/-- `SchedulingResult` (CalendarTypes.ts). -/
structure SchedulingResult where
  success : Bool
  scheduledTasks : List ScheduledTask
  unscheduledTasks : List String
  conflicts : List TaskConflict
  suggestions : List Suggestion
deriving DecidableEq, Repr

/-- The anonymous record returned by `AutoScheduler.scheduleTask`. -/
structure ScheduleAttempt where
  success : Bool
  start : Option Nat
  stop : Option Nat
  confidence : JsNum
  reason : Option String
  suggestedTime : Option Nat
deriving DecidableEq, Repr

/-- The record returned by `AutoScheduler.checkDependencies`. -/
structure DependencyCheck where
  satisfied : Bool
  missing : List String
deriving DecidableEq, Repr

/-- The scheduling window computed by `calculateSchedulingWindow`. -/
structure SchedulingWindow where
  start : Nat
  stop : Nat
deriving DecidableEq, Repr

/-- `getPriorityWeight`: high = 3, medium = 2, low = 1. -/
def getPriorityWeight : Priority → Int
  | .high => 3
  | .medium => 2
  | .low => 1

/-- `getUrgencyScore`.  The source computes fractional
`hoursToDeadline = (deadline - now) / 3600000` and compares it with 0, 24,
48 and 168; comparing the minute difference with the same bounds scaled by
60 is exact. -/
def getUrgencyScore (now : Nat) (task : Task) : Int :=
  match task.deadline with
  | none => 0
  | some d =>
    let minutesToDeadline : Int := (d : Int) - (now : Int)
    if minutesToDeadline < 0 then 10
    else if minutesToDeadline < 24 * 60 then 8
    else if minutesToDeadline < 48 * 60 then 6
    else if minutesToDeadline < 168 * 60 then 4
    else 2

/-- `getDependencyLevel`: how many tasks of the batch depend on this one. -/
def getDependencyLevel (task : Task) (allTasks : List Task) : Int :=
  ((allTasks.filter fun t => (t.dependencies.getD []).contains task.id).length : Int)

/-- The total score the `prioritizeTasks` comparator assigns to a task. -/
def sortScore (now : Nat) (allTasks : List Task) (t : Task) : Int :=
  getPriorityWeight t.priority * 10 + getUrgencyScore now t * 5 +
    getDependencyLevel t allTasks * 3

/-- Insert a task in front of the first element whose key is not larger.
Together with `stableSortByScore` this is the standard stable insertion
sort for a descending order. -/
def insertByScore (key : Task → Int) (t : Task) : List Task → List Task
  | [] => [t]
  | u :: rest => if key u ≤ key t then t :: u :: rest else u :: insertByScore key t rest

/-- Stable sort, descending by `key`.  `Array.prototype.sort` is required
to be stable (ES2019), and the source comparator `scoreB - scoreA` orders
by descending score leaving equal-score tasks in input order; a stable
insertion sort is the corresponding pure function. -/
def stableSortByScore (key : Task → Int) : List Task → List Task
  | [] => []
  | t :: rest => insertByScore key t (stableSortByScore key rest)

/-- `prioritizeTasks`.  `getDependencyLevel` is evaluated against the batch
being sorted; it only counts matching tasks, so any intermediate
permutation the in-place sort exposes to the comparator yields the same
count as the input list. -/
def prioritizeTasks (now : Nat) (tasks : List Task) : List Task :=
  stableSortByScore (sortScore now tasks) tasks

/-- date-fns `isWithinInterval`: inclusive on both endpoints. -/
def isWithinInterval (t s e : Nat) : Bool := s ≤ t && t ≤ e

/-- The per-event test of `findConflicts`. -/
def overlapsEvent (start stop : Nat) (event : CalendarEvent) : Bool :=
  isWithinInterval start event.start event.stop ||
  isWithinInterval stop event.start event.stop ||
  isWithinInterval event.start start stop ||
  isWithinInterval event.stop start stop

/-- `findConflicts`: the events of the current conflict set the candidate
interval overlaps. -/
def findConflicts (existingEvents : List CalendarEvent) (start stop : Nat) :
    List CalendarEvent :=
  existingEvents.filter (overlapsEvent start stop)

/-- `getWorkingHoursForDate`. -/
def getWorkingHoursForDate (settings : CalendarSettings) (date : Nat) :
    Option WorkingHours :=
  if settings.workingHours.daysOfWeek.contains (getDay date) then
    some settings.workingHours
  else none

/-- The loop body of `findSlotsInRange`, by fuel recursion.  The source
steps `current` by 15 minutes while `current <= end`, and `break`s as soon
as `current + duration + buffer` exceeds `end`; since the padded length is
constant, the `break` ends the loop exactly like the guard does. -/
def findSlotsInRangeGo (events : List CalendarEvent) (bufferTime stop duration : Nat) :
    Nat → Nat → List TimeSlot
  | 0, _ => []
  | fuel + 1, current =>
    let slotEnd := addMinutes current (duration + bufferTime)
    if current ≤ stop && slotEnd ≤ stop then
      (if findConflicts events current slotEnd = [] then
        [{ start := current, stop := addMinutes current duration,
           duration := duration, isAvailable := true }]
      else []) ++
      findSlotsInRangeGo events bufferTime stop duration fuel (current + 15)
    else []

/-- `findSlotsInRange`.  The loop runs at most `(stop - start) / 15 + 1`
times, so the chosen fuel is never exhausted (`findSlotsInRangeGo_fuel`
below). -/
def findSlotsInRange (settings : CalendarSettings) (events : List CalendarEvent)
    (start stop duration : Nat) : List TimeSlot :=
  findSlotsInRangeGo events settings.bufferTime stop duration
    ((stop - start) / 15 + 2) start

/-- The start of the working range `findAvailableSlots` searches on the day
of cursor `current`: `workStart > current ? workStart : current`. -/
def dayRangeStart (settings : CalendarSettings) (current : Nat) : Nat :=
  let workStart := setTime current settings.workingHours.startHour
    settings.workingHours.startMinute
  if current < workStart then workStart else current

/-- The end of the working range `findAvailableSlots` searches on the day of
cursor `current`: working-hours end clipped to `min(endOfDay, stop)`. -/
def dayRangeEnd (settings : CalendarSettings) (stop current : Nat) : Nat :=
  let dayEnd := endOfDay current
  let searchEnd := if dayEnd < stop then dayEnd else stop
  let workEnd := setTime current settings.workingHours.endHour
    settings.workingHours.endMinute
  if workEnd < searchEnd then workEnd else searchEnd

/-- The day loop of `findAvailableSlots`, by fuel recursion.  Each iteration
moves the cursor to the start of the next calendar day
(`setDate(getDate()+1); setHours(0,0,0,0)`). -/
def findAvailableSlotsGo (settings : CalendarSettings) (events : List CalendarEvent)
    (stop duration : Nat) : Nat → Nat → List TimeSlot
  | 0, _ => []
  | fuel + 1, current =>
    if current < stop then
      (match getWorkingHoursForDate settings current with
        | some _ =>
          findSlotsInRange settings events (dayRangeStart settings current)
            (dayRangeEnd settings stop current) duration
        | none => []) ++
      findAvailableSlotsGo settings events stop duration fuel (dayStart current + 1440)
    else []

/-- `findAvailableSlots`.  The day loop advances the cursor by at least one
calendar day per iteration, so the chosen fuel is never exhausted
(`findAvailableSlotsGo_fuel` below). -/
def findAvailableSlots (settings : CalendarSettings) (events : List CalendarEvent)
    (start stop duration : Nat) : List TimeSlot :=
  findAvailableSlotsGo settings events stop duration ((stop - start) / 1440 + 2) start

/-- The morning-preference component of `scoreTimeSlot`: for high-priority
tasks, +10 before noon, +5 before 15:00, else +0. -/
def priorityComponent (task : Task) (slot : TimeSlot) : JsNum :=
  if task.priority = .high then
    if getHours slot.start < 12 then JsNum.ofInt 10
    else if getHours slot.start < 15 then JsNum.ofInt 5
    else JsNum.ofInt 0
  else JsNum.ofInt 0

/-- The deadline-proximity component of `scoreTimeSlot`:
`hoursToDeadline = (deadline - slot.start) / 3600000` milliseconds, here
`(deadline - slot.start) / 60` minutes; if positive, add
`Math.min(hoursToDeadline / 24, 10)`. -/
def deadlineComponent (task : Task) (slot : TimeSlot) : JsNum :=
  match task.deadline with
  | none => JsNum.ofInt 0
  | some d =>
    let hoursToDeadline := (JsNum.ofInt ((d : Int) - (slot.start : Int))).div (JsNum.ofInt 60)
    if (JsNum.ofInt 0).lt hoursToDeadline then
      JsNum.min (hoursToDeadline.div (JsNum.ofInt 24)) (JsNum.ofInt 10)
    else JsNum.ofInt 0

/-- `getBufferAfter`: minutes between the slot's end and the first event of
the list starting at or after it, defaulting to 60. -/
def getBufferAfter (events : List CalendarEvent) (slot : TimeSlot) : JsNum :=
  match events.find? fun e => slot.stop ≤ e.start with
  | none => JsNum.ofInt 60
  | some nextEvent => JsNum.ofInt ((nextEvent.start : Int) - (slot.stop : Int))

/-- The trailing-buffer component of `scoreTimeSlot`:
`Math.min(bufferAfter / 30, 5)`. -/
def bufferComponent (events : List CalendarEvent) (slot : TimeSlot) : JsNum :=
  JsNum.min ((getBufferAfter events slot).div (JsNum.ofInt 30)) (JsNum.ofInt 5)

/-- `scoreTimeSlot`: `score = 0`, then the three components accumulated in
source order (a branch that adds nothing is an exact `+ 0`). -/
def scoreTimeSlot (events : List CalendarEvent) (task : Task) (slot : TimeSlot) : JsNum :=
  (((JsNum.ofInt 0).add (priorityComponent task slot)).add
    (deadlineComponent task slot)).add (bufferComponent events slot)

/-- `selectBestTimeSlot`: `Array.prototype.reduce` without a seed — the
first slot seeds the fold and a later slot replaces the current best only
when its score is strictly higher.  The source never calls this on an empty
array (`reduce` would throw); the `[]` case is an unreachable placeholder. -/
def selectBestTimeSlot (events : List CalendarEvent) (slots : List TimeSlot)
    (task : Task) : TimeSlot :=
  match slots with
  | [] => { start := 0, stop := 0, duration := 0, isAvailable := false }
  | first :: rest =>
    rest.foldl
      (fun best current =>
        if (scoreTimeSlot events task best).lt (scoreTimeSlot events task current) then
          current
        else best)
      first

/-- `calculateSchedulingConfidence`.  The `hoursToDeadline > 48` comparison
is exact on minutes against `48 * 60`. -/
def calculateSchedulingConfidence (slot : TimeSlot) (task : Task) : JsNum :=
  let base : JsNum := ⟨7, 10⟩
  let c1 := if task.priority = .high && getHours slot.start < 12 then
      base.add ⟨2, 10⟩
    else base
  let c2 := match task.deadline with
    | some d => if 48 * 60 < (d : Int) - (slot.start : Int) then c1.add ⟨1, 10⟩ else c1
    | none => c1
  let c3 := if getHours slot.start < 8 || 18 < getHours slot.start then
      c2.add ⟨-1, 10⟩
    else c2
  JsNum.max (JsNum.ofInt 0) (JsNum.min (JsNum.ofInt 1) c3)

/-- `checkDependencies`: a dependency is satisfied when some event of the
current conflict set is tagged with it (`e.taskId === depId`). -/
def checkDependencies (events : List CalendarEvent) (task : Task) : DependencyCheck :=
  match task.dependencies with
  | none => { satisfied := true, missing := [] }
  | some deps =>
    if deps.length = 0 then { satisfied := true, missing := [] }
    else
      let missing := deps.filter fun depId =>
        (events.find? fun e => e.taskId = some depId).isNone
      { satisfied := missing.length = 0, missing := missing }

/-- `calculateSchedulingWindow`: search from `max(now, createdAt)` until the
deadline, or 14 days when there is none. -/
def calculateSchedulingWindow (now : Nat) (task : Task) : SchedulingWindow :=
  let start := if task.createdAt < now then now else task.createdAt
  { start := start,
    stop := match task.deadline with
      | some d => d
      | none => addDays start 14 }

/-- `suggestAlternativeTime`: 9 AM tomorrow. -/
def suggestAlternativeTime (now : Nat) : Nat := setTime (addDays now 1) 9 0

/-- `scheduleTask`.  In the frozen-clock reading both clock reads the source
makes here (`calculateSchedulingWindow` and `suggestAlternativeTime` each
call `new Date()`) return `now`. -/
def scheduleTask (settings : CalendarSettings) (events : List CalendarEvent)
    (now : Nat) (task : Task) : ScheduleAttempt :=
  let dependencyCheck := checkDependencies events task
  if !dependencyCheck.satisfied then
    { success := false, start := none, stop := none, confidence := JsNum.ofInt 0,
      reason := some ("Dependencies not satisfied: " ++
        String.intercalate ", " dependencyCheck.missing),
      suggestedTime := none }
  else
    let schedulingWindow := calculateSchedulingWindow now task
    let availableSlots := findAvailableSlots settings events schedulingWindow.start
      schedulingWindow.stop task.estimatedDuration
    if availableSlots = [] then
      { success := false, start := none, stop := none, confidence := JsNum.ofInt 0,
        reason := some "No available time slots found",
        suggestedTime := some (suggestAlternativeTime now) }
    else
      let bestSlot := selectBestTimeSlot events availableSlots task
      { success := true, start := some bestSlot.start, stop := some bestSlot.stop,
        confidence := calculateSchedulingConfidence bestSlot task,
        reason := none, suggestedTime := none }

/-- `generateSuggestions`.  `nowSuggest` is the value of the `new Date()`
read the source makes inside the overdue filter, a clock read of its own
made after all placement work. -/
def generateSuggestions (nowSuggest : Nat) (unscheduledTasks : List String)
    (tasks : List Task) : List Suggestion :=
  let first := if 0 < unscheduledTasks.length then
      [{ message := toString unscheduledTasks.length ++
           " tasks couldn't be scheduled. Consider extending working hours or reducing task load.",
         actionType := ActionType.extendHours, data := unscheduledTasks.length }]
    else []
  let overdueTasks := tasks.filter fun t =>
    match t.deadline with
    | some d => d < nowSuggest
    | none => false
  let second := if 0 < overdueTasks.length then
      [{ message := toString overdueTasks.length ++
           " tasks are overdue. Consider adjusting deadlines or priorities.",
         actionType := ActionType.adjustDeadlines, data := overdueTasks.length }]
    else []
  first ++ second

/-- The mutable state the `scheduleAllTasks` loop threads: the four result
lists under construction and the growing `this.existingEvents` array. -/
structure PassState where
  scheduledTasks : List ScheduledTask
  unscheduledTasks : List String
  conflicts : List TaskConflict
  events : List CalendarEvent
deriving DecidableEq, Repr

/-- The event object literal the success branch of the `scheduleAllTasks`
loop pushes onto `this.existingEvents`. -/
def commitEvent (task : Task) (s e : Nat) : CalendarEvent :=
  { id := "task-" ++ task.id, title := task.title, start := s, stop := e,
    type := EventType.task, taskId := some task.id, isFlexible := true }

/-- The `for (const task of flexibleTasks)` loop of `scheduleAllTasks`.  On
success the placement is pushed and `commitEvent` appended to
`this.existingEvents` (the very array the caller handed to the
constructor); on failure the task id and a conflict record are pushed.
`.getD 0` models the TypeScript non-null assertions
(`schedulingAttempt.start!`), never taken on the success path. -/
def schedulePass (settings : CalendarSettings) (now : Nat) :
    List Task → List CalendarEvent → PassState
  | [], events => { scheduledTasks := [], unscheduledTasks := [], conflicts := [], events := events }
  | task :: rest, events =>
    let attempt := scheduleTask settings events now task
    if attempt.success then
      let s := attempt.start.getD 0
      let e := attempt.stop.getD 0
      let restState := schedulePass settings now rest (events ++ [commitEvent task s e])
      { restState with
        scheduledTasks :=
          { taskId := task.id, start := s, stop := e, confidence := attempt.confidence } ::
            restState.scheduledTasks }
    else
      let restState := schedulePass settings now rest events
      { restState with
        unscheduledTasks := task.id :: restState.unscheduledTasks,
        conflicts :=
          { taskId := task.id,
            reason := attempt.reason.getD "Could not find suitable time slot",
            suggestedTime := attempt.suggestedTime } :: restState.conflicts }

/-- `scheduleAllTasks`, with the clock reads split in two: `now` is the
value returned by every `new Date()` made while ranking and placing
(`getUrgencyScore`, `calculateSchedulingWindow`, `suggestAlternativeTime`),
and `nowSuggest` the value returned by the separate read
`generateSuggestions` makes afterwards.  Besides the `SchedulingResult` the
model returns the final contents of the two caller-owned arrays the source
mutates: `this.existingEvents` (aliasing the constructor argument, grown by
`push`) and the `tasks` argument (reordered in place by `sort`). -/
def scheduleAllTasksDual (settings : CalendarSettings)
    (existingEvents : List CalendarEvent) (tasks : List Task)
    (now nowSuggest : Nat) : SchedulingResult × List CalendarEvent × List Task :=
  let sortedTasks := prioritizeTasks now tasks
  let flexibleTasks := sortedTasks.filter fun task => task.isFlexible
  let st := schedulePass settings now flexibleTasks existingEvents
  let suggestions := generateSuggestions nowSuggest st.unscheduledTasks tasks
  ({ success := st.unscheduledTasks.length == 0,
     scheduledTasks := st.scheduledTasks,
     unscheduledTasks := st.unscheduledTasks,
     conflicts := st.conflicts,
     suggestions := suggestions },
   st.events, sortedTasks)

/-- `scheduleAllTasks` under a frozen clock: every `new Date()` the pass
makes returns the same instant `now`. -/
def scheduleAllTasks (settings : CalendarSettings)
    (existingEvents : List CalendarEvent) (tasks : List Task) (now : Nat) :
    SchedulingResult × List CalendarEvent × List Task :=
  scheduleAllTasksDual settings existingEvents tasks now now

/-! ### Day-boundary arithmetic -/

theorem dayStart_le (t : Nat) : dayStart t ≤ t := by
  unfold dayStart; omega

theorem lt_dayStart_add (t : Nat) : t < dayStart t + 1440 := by
  unfold dayStart; omega

theorem dayStart_next (t : Nat) : dayStart (dayStart t + 1440) = dayStart t + 1440 := by
  unfold dayStart; omega

theorem dayStart_mono {a b : Nat} (h : a ≤ b) : dayStart a ≤ dayStart b := by
  unfold dayStart; omega

theorem dayStart_step {a b : Nat} (h : dayStart a < dayStart b) :
    dayStart a + 1440 ≤ dayStart b := by
  unfold dayStart at *; omega

theorem dayRangeStart_ge (settings : CalendarSettings) (c : Nat) :
    c ≤ dayRangeStart settings c := by
  unfold dayRangeStart; dsimp only; split <;> omega

theorem dayRangeEnd_le (settings : CalendarSettings) (stop c : Nat) :
    dayRangeEnd settings stop c ≤ dayStart c + 1439 := by
  unfold dayRangeEnd endOfDay; dsimp only; split <;> split <;> omega

/-! ### The conflict test -/

theorem findConflicts_eq_nil {events : List CalendarEvent} {s e : Nat}
    (h : findConflicts events s e = []) :
    ∀ ev ∈ events, overlapsEvent s e ev = false := by
  unfold findConflicts at h
  rw [List.filter_eq_nil_iff] at h
  intro ev hev
  simpa using h ev hev

/-- A candidate that passes the (inclusive) conflict test against its padded
interval `[s, e₂]` in particular does not half-open-overlap the event on any
shorter interval `[s, e₁)`, whether or not the event is well-formed. -/
theorem not_overlap_of_overlapsEvent_false {s e₂ e₁ : Nat} {ev : CalendarEvent}
    (hfalse : overlapsEvent s e₂ ev = false) (hle : e₁ ≤ e₂) :
    ¬(s < ev.stop ∧ ev.start < e₁) := by
  unfold overlapsEvent isWithinInterval at hfalse
  simp only [Bool.or_eq_false_iff, Bool.and_eq_false_iff, decide_eq_false_iff_not,
    Nat.not_le] at hfalse
  omega

/-! ### Membership in the slot enumeration -/

theorem mem_findSlotsInRangeGo {events : List CalendarEvent}
    {bufferTime stop duration : Nat} :
    ∀ {fuel current : Nat} {slot : TimeSlot},
      slot ∈ findSlotsInRangeGo events bufferTime stop duration fuel current →
      ∃ k, slot.start = current + 15 * k ∧ slot.stop = slot.start + duration ∧
        slot.duration = duration ∧ slot.isAvailable = true ∧
        slot.start + duration + bufferTime ≤ stop ∧
        findConflicts events slot.start (slot.start + duration + bufferTime) = [] := by
  intro fuel
  induction fuel with
  | zero => intro current slot h; simp [findSlotsInRangeGo] at h
  | succ fuel ih =>
    intro current slot h
    simp only [findSlotsInRangeGo, addMinutes] at h
    split at h
    case isFalse => simp at h
    case isTrue hguard =>
      rw [List.mem_append] at h
      rcases h with h | h
      · split at h
        case isFalse => simp at h
        case isTrue hconf =>
          simp only [List.mem_singleton] at h
          subst h
          have hg : current + (duration + bufferTime) ≤ stop := by
            simp only [Bool.and_eq_true, decide_eq_true_eq] at hguard
            exact hguard.2
          refine ⟨0, by simp, by simp, rfl, rfl, by simp; omega, ?_⟩
          show findConflicts events current (current + duration + bufferTime) = []
          rw [Nat.add_assoc]
          exact hconf
      · obtain ⟨k, h1, h2, h3, h4, h5, h6⟩ := ih h
        exact ⟨k + 1, by omega, h2, h3, h4, h5, h6⟩

theorem mem_findSlotsInRange {settings : CalendarSettings} {events : List CalendarEvent}
    {start stop duration : Nat} {slot : TimeSlot}
    (h : slot ∈ findSlotsInRange settings events start stop duration) :
    ∃ k, slot.start = start + 15 * k ∧ slot.stop = slot.start + duration ∧
      slot.duration = duration ∧ slot.isAvailable = true ∧
      slot.start + duration + settings.bufferTime ≤ stop ∧
      findConflicts events slot.start (slot.start + duration + settings.bufferTime) = [] :=
  mem_findSlotsInRangeGo h

theorem mem_findAvailableSlotsGo {settings : CalendarSettings}
    {events : List CalendarEvent} {stop duration : Nat} :
    ∀ {fuel current : Nat} {slot : TimeSlot},
      slot ∈ findAvailableSlotsGo settings events stop duration fuel current →
      ∃ c, (c = current ∨ (dayStart current < c ∧ c = dayStart c)) ∧ c < stop ∧
        getWorkingHoursForDate settings c = some settings.workingHours ∧
        slot ∈ findSlotsInRange settings events (dayRangeStart settings c)
          (dayRangeEnd settings stop c) duration := by
  intro fuel
  induction fuel with
  | zero => intro current slot h; simp [findAvailableSlotsGo] at h
  | succ fuel ih =>
    intro current slot h
    simp only [findAvailableSlotsGo] at h
    split at h
    case isFalse => simp at h
    case isTrue hlt =>
      rw [List.mem_append] at h
      rcases h with h | h
      · rcases hwh : getWorkingHoursForDate settings current with _ | wh
        · rw [hwh] at h; simp at h
        · rw [hwh] at h
          have hwh' : getWorkingHoursForDate settings current = some settings.workingHours := by
            unfold getWorkingHoursForDate at hwh ⊢
            split at hwh <;> simp_all
          exact ⟨current, Or.inl rfl, hlt, hwh', h⟩
      · obtain ⟨c, hc, hcs, hwh, hmem⟩ := ih h
        refine ⟨c, Or.inr ?_, hcs, hwh, hmem⟩
        rcases hc with rfl | ⟨h1, h2⟩
        · exact ⟨by have := lt_dayStart_add current; omega, (dayStart_next current).symm⟩
        · rw [dayStart_next current] at h1
          exact ⟨by have := lt_dayStart_add current; omega, h2⟩

theorem mem_findAvailableSlots {settings : CalendarSettings}
    {events : List CalendarEvent} {start stop duration : Nat} {slot : TimeSlot}
    (h : slot ∈ findAvailableSlots settings events start stop duration) :
    ∃ c, (c = start ∨ (dayStart start < c ∧ c = dayStart c)) ∧ c < stop ∧
      getWorkingHoursForDate settings c = some settings.workingHours ∧
      slot ∈ findSlotsInRange settings events (dayRangeStart settings c)
        (dayRangeEnd settings stop c) duration :=
  mem_findAvailableSlotsGo h

/-! ### Fuel stability: the chosen fuel bounds are irrelevant -/

theorem findSlotsInRangeGo_out {events : List CalendarEvent}
    {bufferTime stop duration : Nat} (fuel : Nat) {current : Nat} (h : stop < current) :
    findSlotsInRangeGo events bufferTime stop duration fuel current = [] := by
  cases fuel with
  | zero => rfl
  | succ fuel =>
    have : ¬(current ≤ stop) := by omega
    simp [findSlotsInRangeGo, this]

theorem findSlotsInRangeGo_fuel {events : List CalendarEvent}
    {bufferTime stop duration : Nat} :
    ∀ {fuel₁ fuel₂ current : Nat}, stop + 1 ≤ current + 15 * fuel₁ →
      stop + 1 ≤ current + 15 * fuel₂ →
      findSlotsInRangeGo events bufferTime stop duration fuel₁ current =
        findSlotsInRangeGo events bufferTime stop duration fuel₂ current := by
  intro fuel₁
  induction fuel₁ with
  | zero =>
    intro fuel₂ current h1 _
    rw [findSlotsInRangeGo_out fuel₂ (by omega)]
    rfl
  | succ fuel ih =>
    intro fuel₂ current h1 h2
    cases fuel₂ with
    | zero =>
      rw [findSlotsInRangeGo_out (fuel + 1) (by omega)]
      rfl
    | succ fuel₂ =>
      simp only [findSlotsInRangeGo]
      rw [@ih fuel₂ (current + 15) (by omega) (by omega)]

theorem findAvailableSlotsGo_out {settings : CalendarSettings}
    {events : List CalendarEvent} {stop duration : Nat} (fuel : Nat) {current : Nat}
    (h : stop ≤ current) :
    findAvailableSlotsGo settings events stop duration fuel current = [] := by
  cases fuel with
  | zero => rfl
  | succ fuel =>
    have : ¬(current < stop) := by omega
    simp [findAvailableSlotsGo, this]

theorem findAvailableSlotsGo_fuel {settings : CalendarSettings}
    {events : List CalendarEvent} {stop duration : Nat} :
    ∀ {fuel₁ fuel₂ current : Nat}, stop ≤ dayStart current + 1440 * fuel₁ →
      stop ≤ dayStart current + 1440 * fuel₂ →
      findAvailableSlotsGo settings events stop duration fuel₁ current =
        findAvailableSlotsGo settings events stop duration fuel₂ current := by
  intro fuel₁
  induction fuel₁ with
  | zero =>
    intro fuel₂ current h1 _
    have hd := dayStart_le current
    rw [findAvailableSlotsGo_out fuel₂ (by omega)]
    rfl
  | succ fuel ih =>
    intro fuel₂ current h1 h2
    cases fuel₂ with
    | zero =>
      have hd := dayStart_le current
      rw [findAvailableSlotsGo_out (fuel + 1) (by omega)]
      rfl
    | succ fuel₂ =>
      simp only [findAvailableSlotsGo]
      have hnext := dayStart_next current
      rw [@ih fuel₂ (dayStart current + 1440) (by rw [hnext]; omega) (by rw [hnext]; omega)]

/-- The wrappers' fuel exceeds the iteration bound, so any larger fuel
computes the same slot lists. -/
theorem findAvailableSlots_fuel_irrelevant (settings : CalendarSettings)
    (events : List CalendarEvent) (start stop duration extra : Nat) :
    findAvailableSlots settings events start stop duration =
      findAvailableSlotsGo settings events stop duration
        ((stop - start) / 1440 + 2 + extra) start := by
  unfold findAvailableSlots
  have hd := dayStart_le start
  have hd2 := lt_dayStart_add start
  apply findAvailableSlotsGo_fuel <;> unfold dayStart at * <;> omega

/-! ### The selected slot is one of the candidates -/

theorem foldl_choice_mem (pick : TimeSlot → TimeSlot → TimeSlot)
    (hp : ∀ a b, pick a b = a ∨ pick a b = b) :
    ∀ (l : List TimeSlot) (a : TimeSlot), l.foldl pick a = a ∨ l.foldl pick a ∈ l := by
  intro l
  induction l with
  | nil => intro a; exact Or.inl rfl
  | cons b l ih =>
    intro a
    rw [List.foldl_cons]
    rcases ih (pick a b) with h | h
    · rw [h]
      rcases hp a b with h2 | h2 <;> rw [h2]
      · exact Or.inl rfl
      · exact Or.inr (List.mem_cons_self b l)
    · exact Or.inr (List.mem_cons_of_mem b h)

theorem selectBestTimeSlot_mem {events : List CalendarEvent} {slots : List TimeSlot}
    {task : Task} (h : slots ≠ []) :
    selectBestTimeSlot events slots task ∈ slots := by
  cases slots with
  | nil => exact absurd rfl h
  | cons first rest =>
    simp only [selectBestTimeSlot]
    have hp : ∀ a b : TimeSlot,
        (if (scoreTimeSlot events task a).lt (scoreTimeSlot events task b) then b else a) = a ∨
        (if (scoreTimeSlot events task a).lt (scoreTimeSlot events task b) then b else a) = b := by
      intro a b
      split
      · exact Or.inr rfl
      · exact Or.inl rfl
    rcases foldl_choice_mem _ hp rest first with h2 | h2
    · rw [h2]; exact List.mem_cons_self first rest
    · exact List.mem_cons_of_mem first h2

/-! ### Inversion of a successful `scheduleTask` -/

theorem scheduleTask_success_spec {settings : CalendarSettings}
    {events : List CalendarEvent} {now : Nat} {task : Task}
    (h : (scheduleTask settings events now task).success = true) :
    ∃ slot ∈ findAvailableSlots settings events (calculateSchedulingWindow now task).start
        (calculateSchedulingWindow now task).stop task.estimatedDuration,
      (scheduleTask settings events now task).start = some slot.start ∧
      (scheduleTask settings events now task).stop = some slot.stop := by
  by_cases hdep : (checkDependencies events task).satisfied = true
  · by_cases hav : findAvailableSlots settings events
        (calculateSchedulingWindow now task).start
        (calculateSchedulingWindow now task).stop task.estimatedDuration = []
    · exfalso
      simp [scheduleTask, hdep, hav] at h
    · refine ⟨selectBestTimeSlot events _ task, selectBestTimeSlot_mem hav, ?_, ?_⟩ <;>
        simp [scheduleTask, hdep, hav]
  · exfalso
    rw [Bool.not_eq_true] at hdep
    simp [scheduleTask, hdep] at h

theorem scheduleTask_placement {settings : CalendarSettings}
    {events : List CalendarEvent} {now : Nat} {task : Task}
    (h : (scheduleTask settings events now task).success = true) :
    ∃ s : Nat, (scheduleTask settings events now task).start = some s ∧
      (scheduleTask settings events now task).stop = some (s + task.estimatedDuration) ∧
      findConflicts events s (s + task.estimatedDuration + settings.bufferTime) = [] := by
  obtain ⟨slot, hmem, h1, h2⟩ := scheduleTask_success_spec h
  obtain ⟨c, _, _, _, hmem2⟩ := mem_findAvailableSlots hmem
  obtain ⟨k, _, hk2, _, _, _, hconf⟩ := mem_findSlotsInRange hmem2
  exact ⟨slot.start, h1, by rw [h2, hk2], hconf⟩

/-! ### Unfolding the scheduling loop one task at a time -/

theorem schedulePass_cons_success {settings : CalendarSettings} {now : Nat}
    {task : Task} {rest : List Task} {events : List CalendarEvent}
    (hsucc : (scheduleTask settings events now task).success = true) :
    schedulePass settings now (task :: rest) events =
      { schedulePass settings now rest (events ++
          [commitEvent task ((scheduleTask settings events now task).start.getD 0)
            ((scheduleTask settings events now task).stop.getD 0)]) with
        scheduledTasks :=
          { taskId := task.id,
            start := (scheduleTask settings events now task).start.getD 0,
            stop := (scheduleTask settings events now task).stop.getD 0,
            confidence := (scheduleTask settings events now task).confidence } ::
            (schedulePass settings now rest (events ++
              [commitEvent task ((scheduleTask settings events now task).start.getD 0)
                ((scheduleTask settings events now task).stop.getD 0)])).scheduledTasks } := by
  simp [schedulePass, hsucc]

theorem schedulePass_cons_failure {settings : CalendarSettings} {now : Nat}
    {task : Task} {rest : List Task} {events : List CalendarEvent}
    (hfail : (scheduleTask settings events now task).success = false) :
    schedulePass settings now (task :: rest) events =
      { schedulePass settings now rest events with
        unscheduledTasks :=
          task.id :: (schedulePass settings now rest events).unscheduledTasks,
        conflicts :=
          { taskId := task.id,
            reason := (scheduleTask settings events now task).reason.getD
              "Could not find suitable time slot",
            suggestedTime := (scheduleTask settings events now task).suggestedTime } ::
            (schedulePass settings now rest events).conflicts } := by
  simp [schedulePass, hfail]

/-! ### Invariants of the scheduling loop -/

theorem schedulePass_events (settings : CalendarSettings) (now : Nat) :
    ∀ (tasks : List Task) (events : List CalendarEvent),
      ∃ newEvents, (schedulePass settings now tasks events).events = events ++ newEvents ∧
        newEvents.map (fun e => (e.start, e.stop)) =
          (schedulePass settings now tasks events).scheduledTasks.map
            fun p => (p.start, p.stop) := by
  intro tasks
  induction tasks with
  | nil => intro events; exact ⟨[], by simp [schedulePass], by simp [schedulePass]⟩
  | cons task rest ih =>
    intro events
    by_cases hsucc : (scheduleTask settings events now task).success = true
    · rw [schedulePass_cons_success hsucc]
      obtain ⟨newEvents, he, hm⟩ := ih (events ++
        [commitEvent task ((scheduleTask settings events now task).start.getD 0)
          ((scheduleTask settings events now task).stop.getD 0)])
      refine ⟨commitEvent task ((scheduleTask settings events now task).start.getD 0)
        ((scheduleTask settings events now task).stop.getD 0) :: newEvents, ?_, ?_⟩
      · simpa using he
      · simpa [commitEvent] using hm
    · rw [Bool.not_eq_true] at hsucc
      rw [schedulePass_cons_failure hsucc]
      exact ih events

theorem schedulePass_no_overlap (settings : CalendarSettings) (now : Nat) :
    ∀ (tasks : List Task) (events : List CalendarEvent),
      (∀ p ∈ (schedulePass settings now tasks events).scheduledTasks, ∀ ev ∈ events,
          ¬(p.start < ev.stop ∧ ev.start < p.stop)) ∧
      List.Pairwise (fun p q : ScheduledTask => ¬(p.start < q.stop ∧ q.start < p.stop))
        (schedulePass settings now tasks events).scheduledTasks := by
  intro tasks
  induction tasks with
  | nil =>
    intro events
    constructor
    · intro p hp; simp [schedulePass] at hp
    · simp [schedulePass]
  | cons task rest ih =>
    intro events
    by_cases hsucc : (scheduleTask settings events now task).success = true
    · obtain ⟨s, hs, he, hconf⟩ := scheduleTask_placement hsucc
      have hs0 : (scheduleTask settings events now task).start.getD 0 = s := by rw [hs]; rfl
      have he0 : (scheduleTask settings events now task).stop.getD 0 =
          s + task.estimatedDuration := by rw [he]; rfl
      rw [schedulePass_cons_success hsucc, hs0, he0]
      obtain ⟨ih1, ih2⟩ := ih (events ++ [commitEvent task s (s + task.estimatedDuration)])
      have hnoev : ∀ ev ∈ events, ¬(s < ev.stop ∧ ev.start < s + task.estimatedDuration) := by
        intro ev hev
        exact not_overlap_of_overlapsEvent_false (findConflicts_eq_nil hconf ev hev)
          (by omega)
      constructor
      · intro p hp ev hev
        rcases List.mem_cons.mp hp with rfl | hp
        · exact hnoev ev hev
        · exact ih1 p hp ev (List.mem_append_left _ hev)
      · rw [List.pairwise_cons]
        constructor
        · intro q hq
          have := ih1 q hq (commitEvent task s (s + task.estimatedDuration))
            (List.mem_append_right _ (List.mem_singleton_self _))
          simp only [commitEvent] at this
          exact fun hcontra => this ⟨hcontra.2, hcontra.1⟩
        · exact ih2
    · rw [Bool.not_eq_true] at hsucc
      rw [schedulePass_cons_failure hsucc]
      exact ih events

theorem schedulePass_placements (settings : CalendarSettings) (now : Nat) :
    ∀ (tasks : List Task) (events : List CalendarEvent),
      ∀ p ∈ (schedulePass settings now tasks events).scheduledTasks,
        ∃ t ∈ tasks, p.taskId = t.id ∧ p.stop = p.start + t.estimatedDuration := by
  intro tasks
  induction tasks with
  | nil => intro events p hp; simp [schedulePass] at hp
  | cons task rest ih =>
    intro events p hp
    by_cases hsucc : (scheduleTask settings events now task).success = true
    · obtain ⟨s, hs, he, _⟩ := scheduleTask_placement hsucc
      have hs0 : (scheduleTask settings events now task).start.getD 0 = s := by rw [hs]; rfl
      have he0 : (scheduleTask settings events now task).stop.getD 0 =
          s + task.estimatedDuration := by rw [he]; rfl
      rw [schedulePass_cons_success hsucc, hs0, he0] at hp
      rcases List.mem_cons.mp hp with rfl | hp
      · exact ⟨task, List.mem_cons_self _ _, rfl, rfl⟩
      · obtain ⟨t, ht, h1, h2⟩ := ih _ p hp
        exact ⟨t, List.mem_cons_of_mem _ ht, h1, h2⟩
    · rw [Bool.not_eq_true] at hsucc
      rw [schedulePass_cons_failure hsucc] at hp
      obtain ⟨t, ht, h1, h2⟩ := ih events p hp
      exact ⟨t, List.mem_cons_of_mem _ ht, h1, h2⟩

theorem schedulePass_counts (settings : CalendarSettings) (now : Nat) :
    ∀ (tasks : List Task) (events : List CalendarEvent),
      (schedulePass settings now tasks events).scheduledTasks.length +
        (schedulePass settings now tasks events).unscheduledTasks.length = tasks.length := by
  intro tasks
  induction tasks with
  | nil => intro events; simp [schedulePass]
  | cons task rest ih =>
    intro events
    by_cases hsucc : (scheduleTask settings events now task).success = true
    · rw [schedulePass_cons_success hsucc]
      have := ih (events ++
        [commitEvent task ((scheduleTask settings events now task).start.getD 0)
          ((scheduleTask settings events now task).stop.getD 0)])
      simpa using by omega
    · rw [Bool.not_eq_true] at hsucc
      rw [schedulePass_cons_failure hsucc]
      have := ih events
      simpa using by omega

/-! ### The stable descending sort -/

theorem mem_insertByScore {key : Task → Int} {t x : Task} :
    ∀ {l : List Task}, x ∈ insertByScore key t l ↔ x = t ∨ x ∈ l := by
  intro l
  induction l with
  | nil => simp [insertByScore]
  | cons u rest ih =>
    simp only [insertByScore]
    split
    · simp [List.mem_cons]
    · simp only [List.mem_cons, ih]
      tauto

theorem insertByScore_perm (key : Task → Int) (t : Task) :
    ∀ l : List Task, List.Perm (insertByScore key t l) (t :: l) := by
  intro l
  induction l with
  | nil => simp [insertByScore]
  | cons u rest ih =>
    simp only [insertByScore]
    split
    · exact List.Perm.refl _
    · exact ((ih.cons u).trans (List.Perm.swap t u rest))

theorem stableSortByScore_perm (key : Task → Int) :
    ∀ l : List Task, List.Perm (stableSortByScore key l) l := by
  intro l
  induction l with
  | nil => simp [stableSortByScore]
  | cons t rest ih =>
    simpa [stableSortByScore] using (insertByScore_perm key t _).trans (ih.cons t)

theorem insertByScore_pairwise {key : Task → Int} {t : Task} :
    ∀ {l : List Task}, List.Pairwise (fun a b => key b ≤ key a) l →
      List.Pairwise (fun a b => key b ≤ key a) (insertByScore key t l) := by
  intro l
  induction l with
  | nil => intro _; simp [insertByScore]
  | cons u rest ih =>
    intro h
    rw [List.pairwise_cons] at h
    simp only [insertByScore]
    split
    case isTrue hle =>
      rw [List.pairwise_cons]
      refine ⟨?_, List.pairwise_cons.mpr h⟩
      intro w hw
      rcases List.mem_cons.mp hw with rfl | hw
      · exact hle
      · exact (h.1 w hw).trans hle
    case isFalse hle =>
      rw [List.pairwise_cons]
      refine ⟨?_, ih h.2⟩
      intro w hw
      rcases mem_insertByScore.mp hw with rfl | hw
      · omega
      · exact h.1 w hw

theorem stableSortByScore_pairwise (key : Task → Int) :
    ∀ l : List Task, List.Pairwise (fun a b => key b ≤ key a) (stableSortByScore key l) := by
  intro l
  induction l with
  | nil => simp [stableSortByScore]
  | cons t rest ih => exact insertByScore_pairwise ih

theorem insertByScore_filter (key : Task → Int) (t : Task) (q : Int) :
    ∀ l : List Task,
      (insertByScore key t l).filter (fun u => key u == q) =
        if key t = q then t :: l.filter (fun u => key u == q)
        else l.filter (fun u => key u == q) := by
  intro l
  induction l with
  | nil =>
    by_cases hq : key t = q <;>
      simp [insertByScore, List.filter_cons, beq_iff_eq, hq]
  | cons u rest ih =>
    simp only [insertByScore]
    split
    case isTrue hle =>
      by_cases hq : key t = q <;>
        simp [List.filter_cons, beq_iff_eq, hq]
    case isFalse hle =>
      by_cases hq : key t = q
      · have hu : ¬(key u = q) := by omega
        simp [List.filter_cons, beq_iff_eq, ih, hq, hu]
      · simp [List.filter_cons, beq_iff_eq, ih, hq]

theorem stableSortByScore_filter (key : Task → Int) (q : Int) :
    ∀ l : List Task,
      (stableSortByScore key l).filter (fun u => key u == q) =
        l.filter (fun u => key u == q) := by
  intro l
  induction l with
  | nil => rfl
  | cons t rest ih =>
    simp only [stableSortByScore]
    rw [insertByScore_filter, ih]
    by_cases hq : key t = q <;> simp [List.filter_cons, hq]

/-! ### An empty weekday set disables every day -/

theorem getWorkingHoursForDate_empty {settings : CalendarSettings}
    (h : settings.workingHours.daysOfWeek = []) (date : Nat) :
    getWorkingHoursForDate settings date = none := by
  simp [getWorkingHoursForDate, h]

theorem findAvailableSlotsGo_empty_days {settings : CalendarSettings}
    (h : settings.workingHours.daysOfWeek = []) (events : List CalendarEvent)
    (stop duration : Nat) :
    ∀ (fuel current : Nat),
      findAvailableSlotsGo settings events stop duration fuel current = [] := by
  intro fuel
  induction fuel with
  | zero => intro current; rfl
  | succ fuel ih =>
    intro current
    simp only [findAvailableSlotsGo, getWorkingHoursForDate_empty h]
    split
    · simpa using ih (dayStart current + 1440)
    · rfl

theorem scheduleTask_empty_days {settings : CalendarSettings}
    (h : settings.workingHours.daysOfWeek = []) (events : List CalendarEvent)
    (now : Nat) (task : Task) :
    (scheduleTask settings events now task).success = false := by
  by_cases hdep : (checkDependencies events task).satisfied = true
  · have hav : findAvailableSlots settings events (calculateSchedulingWindow now task).start
        (calculateSchedulingWindow now task).stop task.estimatedDuration = [] := by
      unfold findAvailableSlots
      exact findAvailableSlotsGo_empty_days h events _ _ _ _
    simp [scheduleTask, hdep, hav]
  · rw [Bool.not_eq_true] at hdep
    simp [scheduleTask, hdep]

theorem schedulePass_empty_days {settings : CalendarSettings}
    (h : settings.workingHours.daysOfWeek = []) (now : Nat) :
    ∀ (tasks : List Task) (events : List CalendarEvent),
      (schedulePass settings now tasks events).scheduledTasks = [] ∧
      (schedulePass settings now tasks events).unscheduledTasks = tasks.map Task.id := by
  intro tasks
  induction tasks with
  | nil => intro events; exact ⟨rfl, rfl⟩
  | cons task rest ih =>
    intro events
    rw [schedulePass_cons_failure (scheduleTask_empty_days h events now task)]
    obtain ⟨h1, h2⟩ := ih events
    exact ⟨h1, by simp [h2]⟩

/-! ### Dependency failures -/

theorem checkDependencies_unsatisfied {events : List CalendarEvent} {task : Task}
    {depId : String} (hdep : depId ∈ task.dependencies.getD [])
    (habsent : ∀ ev ∈ events, ¬ev.taskId = some depId) :
    (checkDependencies events task).satisfied = false ∧
      depId ∈ (checkDependencies events task).missing := by
  rcases hdeps : task.dependencies with _ | deps
  · rw [hdeps] at hdep; simp at hdep
  · rw [hdeps] at hdep
    simp only [Option.getD_some] at hdep
    have hne : ¬(deps.length = 0) := by
      intro h0
      rw [List.length_eq_zero] at h0
      rw [h0] at hdep
      simp at hdep
    have hfind : (events.find? fun e => e.taskId = some depId) = none := by
      rw [List.find?_eq_none]
      intro ev hev
      simpa using habsent ev hev
    have hmem : depId ∈ (task.dependencies.getD []).filter
        (fun d => (events.find? fun e => e.taskId = some d).isNone) := by
      rw [hdeps]
      simp only [Option.getD_some]
      rw [List.mem_filter]
      exact ⟨hdep, by rw [hfind]; rfl⟩
    constructor
    · simp only [checkDependencies, hdeps, hne, if_false]
      rw [hdeps] at hmem
      simp only [Option.getD_some] at hmem
      have : ((deps.filter fun d => (events.find? fun e => e.taskId = some d).isNone).length = 0) = False := by
        simp only [eq_iff_iff, iff_false]
        intro hlen
        rw [List.length_eq_zero] at hlen
        rw [hlen] at hmem
        simp at hmem
      simp [this]
    · simp only [checkDependencies, hdeps, hne, if_false]
      rw [hdeps] at hmem
      simpa using hmem

theorem scheduleTask_unsatisfied {settings : CalendarSettings}
    {events : List CalendarEvent} {now : Nat} {task : Task}
    (h : (checkDependencies events task).satisfied = false) :
    scheduleTask settings events now task =
      { success := false, start := none, stop := none, confidence := JsNum.ofInt 0,
        reason := some ("Dependencies not satisfied: " ++
          String.intercalate ", " (checkDependencies events task).missing),
        suggestedTime := none } := by
  simp [scheduleTask, h]

/-! ### Concrete fixtures used by counterexamples and witnesses -/

/-- 9:00–10:30 working hours on Mondays only. -/
def exampleWorkingHours : WorkingHours := ⟨9, 0, 10, 30, [1]⟩

/-- Settings with a 15-minute buffer; model day 4 is a Monday. -/
def exampleSettings : CalendarSettings := ⟨exampleWorkingHours, 60, 15, 15, 0⟩

/-- 11:00–13:45 working hours on Mondays and Tuesdays. -/
def afternoonWorkingHours : WorkingHours := ⟨11, 0, 13, 45, [1, 2]⟩

/-- Settings with a 15-minute buffer whose working window spans noon. -/
def afternoonSettings : CalendarSettings := ⟨afternoonWorkingHours, 60, 15, 15, 0⟩

def taskMedium1 : Task := ⟨"m1", "M1", Priority.medium, 30, none, 0, none, true⟩

def taskMedium2 : Task := ⟨"m2", "M2", Priority.medium, 30, none, 0, none, true⟩

def taskHighPri : Task := ⟨"high", "H", Priority.high, 30, none, 0, none, true⟩

def taskLowPri : Task := ⟨"low", "L", Priority.low, 30, none, 0, none, true⟩

/-- A rigid (non-flexible) task whose deadline is minute 100. -/
def taskRigid : Task := ⟨"r1", "R", Priority.medium, 30, some 100, 0, none, false⟩

/-- A working-hours configuration whose weekday set is empty. -/
def emptyDaysWorkingHours : WorkingHours := ⟨9, 0, 17, 0, []⟩

def emptyDaysSettings : CalendarSettings := ⟨emptyDaysWorkingHours, 60, 15, 5, 0⟩

def taskFlex60 : Task := ⟨"t1", "T1", Priority.medium, 60, none, 0, none, true⟩

/-- A flexible task depending on the identifiers "a" and "b". -/
def taskWithDeps : Task := ⟨"d1", "D1", Priority.medium, 30, none, 0, some ["a", "b"], true⟩

/-- A meeting occupying `[0, 10]`. -/
def exampleEvent : CalendarEvent :=
  ⟨"e", "E", 0, 10, EventType.meeting, none, false⟩

/-- The half-open-overlap conflict relation as the spec words it (modelled
from the spec for comparison with the source's test): `[s1,e1)` and
`[s2,e2)` conflict iff `s1 < e2` and `s2 < e1`. -/
def specHalfOpenConflict (s1 e1 s2 e2 : Nat) : Prop := s1 < e2 ∧ s2 < e1

/-- C2, counterexample: the candidate `[10, 20]` merely touches the event
`[0, 10]` — no half-open overlap — yet the source's conflict test (built
from date-fns `isWithinInterval`, inclusive on both endpoints) reports a
conflict, so the test is not half-open overlap. -/
theorem overlapsEvent_touching_counterexample :
    overlapsEvent 10 20 exampleEvent = true ∧ ¬specHalfOpenConflict 10 20 0 10 := by
  refine ⟨by decide, ?_⟩
  unfold specHalfOpenConflict
  decide

/-- C2, amended: on well-formed intervals the per-event conflict test is
exactly closed-interval overlap — `[s,e]` conflicts with the event iff
`event.start ≤ e` and `s ≤ event.stop`; two intervals that merely touch DO
conflict. -/
theorem overlapsEvent_iff_closed_overlap {s e : Nat} {ev : CalendarEvent}
    (hse : s ≤ e) (hev : ev.start ≤ ev.stop) :
    (overlapsEvent s e ev = true) ↔ (ev.start ≤ e ∧ s ≤ ev.stop) := by
  unfold overlapsEvent isWithinInterval
  simp only [Bool.or_eq_true, Bool.and_eq_true, decide_eq_true_eq]
  omega

/-- Witness for `overlapsEvent_iff_closed_overlap` at the concrete
fixture. -/
theorem overlapsEvent_iff_closed_overlap_witness :
    ((10 : Nat) ≤ 20 ∧ exampleEvent.start ≤ exampleEvent.stop) ∧
      ((overlapsEvent 10 20 exampleEvent = true) ↔
        (exampleEvent.start ≤ 20 ∧ 10 ≤ exampleEvent.stop)) :=
  ⟨⟨by decide, by decide⟩, overlapsEvent_iff_closed_overlap (by decide) (by decide)⟩

/-- C3, counterexample: the source re-samples `new Date()` mid-pass — in
particular `generateSuggestions` makes a clock read of its own after
placement.  With identical inputs and the same initial `now = 0`, a later
suggestion-phase read (200, past the rigid task's deadline 100) changes the
returned `SchedulingResult`, so the outcome is not determined by a single
captured "now". -/
theorem scheduleAllTasks_resampled_clock_counterexample :
    ¬(scheduleAllTasksDual emptyDaysSettings [] [taskRigid] 0 200 =
        scheduleAllTasksDual emptyDaysSettings [] [taskRigid] 0 0) := by
  decide

/-- C3, amended: every result component except the suggestions depends only
on the placement-phase clock value, and when every clock read of the pass
returns the same frozen instant the call is the pure function
`scheduleAllTasks`, so two such calls with identical inputs yield identical
results. -/
theorem scheduleAllTasksDual_deterministic (settings : CalendarSettings)
    (existingEvents : List CalendarEvent) (tasks : List Task) (now nowSuggest : Nat) :
    (scheduleAllTasksDual settings existingEvents tasks now nowSuggest).1.scheduledTasks =
        (scheduleAllTasks settings existingEvents tasks now).1.scheduledTasks ∧
      (scheduleAllTasksDual settings existingEvents tasks now nowSuggest).1.unscheduledTasks =
        (scheduleAllTasks settings existingEvents tasks now).1.unscheduledTasks ∧
      (scheduleAllTasksDual settings existingEvents tasks now nowSuggest).1.conflicts =
        (scheduleAllTasks settings existingEvents tasks now).1.conflicts ∧
      (scheduleAllTasksDual settings existingEvents tasks now nowSuggest).1.success =
        (scheduleAllTasks settings existingEvents tasks now).1.success ∧
      scheduleAllTasksDual settings existingEvents tasks now now =
        scheduleAllTasks settings existingEvents tasks now :=
  ⟨rfl, rfl, rfl, rfl, rfl⟩

/-- C5: before placement the batch is stably sorted by descending
`score = 10 * priorityWeight + 5 * urgency + 3 * dependents`: the ranked
list is descending in that score, and for every score value the equal-score
items appear exactly as they did in the input (stability); the ranked list
is a permutation of the input. -/
theorem prioritizeTasks_sorted_stable (now : Nat) (tasks : List Task) :
    List.Pairwise
        (fun a b =>
          getPriorityWeight b.priority * 10 + getUrgencyScore now b * 5 +
              getDependencyLevel b tasks * 3 ≤
            getPriorityWeight a.priority * 10 + getUrgencyScore now a * 5 +
              getDependencyLevel a tasks * 3)
        (prioritizeTasks now tasks) ∧
      (∀ q : Int,
        (prioritizeTasks now tasks).filter
            (fun t => getPriorityWeight t.priority * 10 + getUrgencyScore now t * 5 +
              getDependencyLevel t tasks * 3 == q) =
          tasks.filter
            (fun t => getPriorityWeight t.priority * 10 + getUrgencyScore now t * 5 +
              getDependencyLevel t tasks * 3 == q)) ∧
      List.Perm (prioritizeTasks now tasks) tasks :=
  ⟨stableSortByScore_pairwise (sortScore now tasks) tasks,
   fun q => stableSortByScore_filter (sortScore now tasks) q tasks,
   stableSortByScore_perm (sortScore now tasks) tasks⟩

/-- C10: the returned `success` flag is true exactly when the
`unscheduledTasks` list is empty, and scheduled and unscheduled placements
together account for exactly the flexible items of the batch. -/
theorem scheduleAllTasks_success_iff (settings : CalendarSettings)
    (existingEvents : List CalendarEvent) (tasks : List Task) (now : Nat) :
    ((scheduleAllTasks settings existingEvents tasks now).1.success = true ↔
        (scheduleAllTasks settings existingEvents tasks now).1.unscheduledTasks = []) ∧
      (scheduleAllTasks settings existingEvents tasks now).1.scheduledTasks.length +
          (scheduleAllTasks settings existingEvents tasks now).1.unscheduledTasks.length =
        (tasks.filter fun t => t.isFlexible).length := by
  constructor
  · show ((schedulePass settings now ((prioritizeTasks now tasks).filter fun task => task.isFlexible)
          existingEvents).unscheduledTasks.length == 0) = true ↔
        (schedulePass settings now ((prioritizeTasks now tasks).filter fun task => task.isFlexible)
          existingEvents).unscheduledTasks = []
    rw [beq_iff_eq, List.length_eq_zero]
  · have hcount := schedulePass_counts settings now
      ((prioritizeTasks now tasks).filter fun t => t.isFlexible) existingEvents
    have hperm : List.Perm ((prioritizeTasks now tasks).filter fun t => t.isFlexible)
        (tasks.filter fun t => t.isFlexible) :=
      (stableSortByScore_perm (sortScore now tasks) tasks).filter _
    calc (scheduleAllTasks settings existingEvents tasks now).1.scheduledTasks.length +
          (scheduleAllTasks settings existingEvents tasks now).1.unscheduledTasks.length
        = ((prioritizeTasks now tasks).filter fun t => t.isFlexible).length := hcount
      _ = (tasks.filter fun t => t.isFlexible).length := hperm.length_eq

/-- C1: in every run of `scheduleAllTasks`, each committed placement's
half-open interval `[start, start + estimatedDuration)` (and indeed
`stop = start + estimatedDuration` for the placed task) overlaps no
pre-existing interval, the committed placements of one pass are pairwise
non-overlapping (each was checked against the conflict set containing all
earlier commits), and each placement belongs to a task of the batch with
exactly its duration. -/
theorem scheduleAllTasks_no_overlap (settings : CalendarSettings)
    (existingEvents : List CalendarEvent) (tasks : List Task) (now : Nat) :
    (∀ p ∈ (scheduleAllTasks settings existingEvents tasks now).1.scheduledTasks,
        ∀ ev ∈ existingEvents, ¬(p.start < ev.stop ∧ ev.start < p.stop)) ∧
      List.Pairwise (fun p q : ScheduledTask => ¬(p.start < q.stop ∧ q.start < p.stop))
        (scheduleAllTasks settings existingEvents tasks now).1.scheduledTasks ∧
      (∀ p ∈ (scheduleAllTasks settings existingEvents tasks now).1.scheduledTasks,
        ∃ t ∈ tasks, p.taskId = t.id ∧ p.stop = p.start + t.estimatedDuration) := by
  obtain ⟨h1, h2⟩ := schedulePass_no_overlap settings now
    ((prioritizeTasks now tasks).filter fun task => task.isFlexible) existingEvents
  refine ⟨h1, h2, ?_⟩
  intro p hp
  obtain ⟨t, ht, ha, hb⟩ := schedulePass_placements settings now
    ((prioritizeTasks now tasks).filter fun task => task.isFlexible) existingEvents p hp
  refine ⟨t, ?_, ha, hb⟩
  have hmem := List.mem_of_mem_filter ht
  exact ((stableSortByScore_perm (sortScore now tasks) tasks).mem_iff).mp hmem

set_option maxRecDepth 2000 in
/-- C4, counterexample: a run that schedules two flexible tasks leaves the
caller's existing-events array two elements longer and the caller's tasks
array reordered (priority order, not input order) — `scheduleAllTasks`
mutates both caller-owned collections. -/
theorem scheduleAllTasks_mutates_counterexample :
    (scheduleAllTasks exampleSettings [] [taskLowPri, taskHighPri] 6300).2.1 ≠ [] ∧
      (scheduleAllTasks exampleSettings [] [taskLowPri, taskHighPri] 6300).2.2 ≠
        [taskLowPri, taskHighPri] := by
  decide

/-- C4, amended: `scheduleAllTasks` mutates both caller-owned collections —
after a call the tasks array holds the prioritized order, and the
existing-events array holds its former contents followed by exactly one
appended event per committed placement (same start and end), in commit
order; isolation requires the caller to pass private copies. -/
theorem scheduleAllTasks_mutation_spec (settings : CalendarSettings)
    (existingEvents : List CalendarEvent) (tasks : List Task) (now : Nat) :
    (scheduleAllTasks settings existingEvents tasks now).2.2 = prioritizeTasks now tasks ∧
      ∃ newEvents,
        (scheduleAllTasks settings existingEvents tasks now).2.1 =
          existingEvents ++ newEvents ∧
        newEvents.map (fun e => (e.start, e.stop)) =
          (scheduleAllTasks settings existingEvents tasks now).1.scheduledTasks.map
            fun p => (p.start, p.stop) :=
  ⟨rfl, schedulePass_events settings now
    ((prioritizeTasks now tasks).filter fun task => task.isFlexible) existingEvents⟩

/-- A task with deadline at minute 2880 (48 h). -/
def deadlineTask : Task := ⟨"dl", "DL", Priority.medium, 30, some 2880, 0, none, true⟩

/-- A candidate slot one hour before `deadlineTask`'s deadline. -/
def slotNearDeadline : TimeSlot := ⟨2820, 2850, 30, true⟩

/-- A candidate slot 47 hours before `deadlineTask`'s deadline. -/
def slotFarFromDeadline : TimeSlot := ⟨60, 90, 30, true⟩

/-- C6, counterexample: both slots start before the deadline and the slot
with FEWER hours until the deadline receives a strictly SMALLER
deadline-proximity component (1/24 vs 47/24 points) — the source rewards
scheduling early, the opposite monotonicity of the claim. -/
theorem deadlineComponent_direction_counterexample :
    slotNearDeadline.start < 2880 ∧ slotFarFromDeadline.start < 2880 ∧
      deadlineTask.deadline = some 2880 ∧
      JsNum.lt (deadlineComponent deadlineTask slotNearDeadline)
        (deadlineComponent deadlineTask slotFarFromDeadline) = true := by
  decide

/-- C6, amended: the deadline-proximity component is at most +10, and of
two candidate slots that both start before the deadline the one with MORE
hours until the deadline (the earlier slot) receives a component at least
as large. -/
theorem deadlineComponent_monotone (task : Task) (d : Nat) (hd : task.deadline = some d)
    (slot1 slot2 : TimeSlot) (h1 : slot1.start < d) (h2 : slot2.start < d)
    (hle : slot2.start ≤ slot1.start) :
    JsNum.le (deadlineComponent task slot1) (deadlineComponent task slot2) = true ∧
      JsNum.le (deadlineComponent task slot1) (JsNum.ofInt 10) = true ∧
      JsNum.le (deadlineComponent task slot2) (JsNum.ofInt 10) = true := by
  simp only [deadlineComponent, hd, JsNum.div, JsNum.ofInt, JsNum.lt, JsNum.min, JsNum.le]
  refine ⟨?_, ?_, ?_⟩ <;>
    · split_ifs <;> simp_all <;> omega

/-- Witness for `deadlineComponent_monotone` at the concrete fixtures. -/
theorem deadlineComponent_monotone_witness :
    (deadlineTask.deadline = some 2880 ∧ slotNearDeadline.start < 2880 ∧
        slotFarFromDeadline.start < 2880 ∧
        slotFarFromDeadline.start ≤ slotNearDeadline.start) ∧
      (JsNum.le (deadlineComponent deadlineTask slotNearDeadline)
          (deadlineComponent deadlineTask slotFarFromDeadline) = true ∧
        JsNum.le (deadlineComponent deadlineTask slotNearDeadline) (JsNum.ofInt 10) = true ∧
        JsNum.le (deadlineComponent deadlineTask slotFarFromDeadline) (JsNum.ofInt 10) = true) :=
  ⟨⟨rfl, by decide, by decide, by decide⟩,
   deadlineComponent_monotone deadlineTask 2880 rfl slotNearDeadline slotFarFromDeadline
     (by decide) (by decide) (by decide)⟩

set_option maxRecDepth 2000 in
/-- C7, counterexample: with an empty weekday set (a configuration yielding
zero usable days) and one flexible item, `scheduleAllTasks` raises nothing
and reports the condition exactly as a per-item placement failure — the
item lands in `unscheduledTasks` with reason "No available time slots
found" — not as any configuration error surfaced before scheduling. -/
theorem emptyDays_per_item_failure_counterexample :
    (scheduleAllTasks emptyDaysSettings [] [taskFlex60] 0).1 =
      ⟨false, [], ["t1"],
        [⟨"t1", "No available time slots found", some 1980⟩],
        [⟨"1 tasks couldn't be scheduled. Consider extending working hours or reducing task load.",
          ActionType.extendHours, 1⟩]⟩ := by
  decide

/-- C7, amended: a working-hour configuration with an empty weekday set is
not detected up front: the call performs no configuration check, commits
nothing, and every flexible item of the batch fails individually, its
identifier reported in `unscheduledTasks`. -/
theorem scheduleAllTasks_empty_days (settings : CalendarSettings)
    (h : settings.workingHours.daysOfWeek = [])
    (existingEvents : List CalendarEvent) (tasks : List Task) (now : Nat) :
    (scheduleAllTasks settings existingEvents tasks now).1.scheduledTasks = [] ∧
      (scheduleAllTasks settings existingEvents tasks now).1.unscheduledTasks =
        ((prioritizeTasks now tasks).filter fun task => task.isFlexible).map Task.id :=
  schedulePass_empty_days h now
    ((prioritizeTasks now tasks).filter fun task => task.isFlexible) existingEvents

/-- Witness for `scheduleAllTasks_empty_days` at the concrete fixture. -/
theorem scheduleAllTasks_empty_days_witness :
    emptyDaysSettings.workingHours.daysOfWeek = [] ∧
      ((scheduleAllTasks emptyDaysSettings [] [taskFlex60] 0).1.scheduledTasks = [] ∧
        (scheduleAllTasks emptyDaysSettings [] [taskFlex60] 0).1.unscheduledTasks =
          ((prioritizeTasks 0 [taskFlex60]).filter fun task => task.isFlexible).map Task.id) :=
  ⟨rfl, scheduleAllTasks_empty_days emptyDaysSettings rfl [] [taskFlex60] 0⟩

/-- `Bool`-valued "string `s` begins with `p`" (formalizing the spec's
"reason beginning ..."). -/
def stringBeginsWith (s p : String) : Bool := p.data.isPrefixOf s.data

/-- C8, counterexample: the failure reason the source produces starts with
a capital letter — `"Dependencies not satisfied: a, b"` — so it does not
begin with the claimed lowercase `"dependencies not satisfied"`. -/
theorem dependency_reason_case_counterexample :
    (scheduleTask exampleSettings [] 0 taskWithDeps).reason =
        some "Dependencies not satisfied: a, b" ∧
      stringBeginsWith "Dependencies not satisfied: a, b" "dependencies not satisfied" =
        false ∧
      stringBeginsWith "Dependencies not satisfied: a, b" "Dependencies not satisfied" =
        true := by
  refine ⟨by decide, by decide, by decide⟩

/-- C8, amended: a flexible item with a dependency identifier tagged on no
event of the current conflict set (pre-existing events plus placements
committed earlier in the pass) fails immediately: `scheduleTask` returns
the early failure record whose reason is `"Dependencies not satisfied: "`
followed by the comma-separated missing identifiers — no slot search is
reflected in the attempt — and in the scheduling loop the item is never
placed: it contributes nothing to `scheduledTasks` or to the event set, and
its id is pushed onto `unscheduledTasks` with the matching conflict
record. -/
theorem scheduleTask_missing_dependency (settings : CalendarSettings)
    (events : List CalendarEvent) (now : Nat) (task : Task) (rest : List Task)
    (depId : String) (hdep : depId ∈ task.dependencies.getD [])
    (habsent : ∀ ev ∈ events, ¬ev.taskId = some depId) :
    scheduleTask settings events now task =
      { success := false, start := none, stop := none, confidence := JsNum.ofInt 0,
        reason := some ("Dependencies not satisfied: " ++
          String.intercalate ", " (checkDependencies events task).missing),
        suggestedTime := none } ∧
    (schedulePass settings now (task :: rest) events).scheduledTasks =
        (schedulePass settings now rest events).scheduledTasks ∧
      (schedulePass settings now (task :: rest) events).unscheduledTasks =
        task.id :: (schedulePass settings now rest events).unscheduledTasks ∧
      (schedulePass settings now (task :: rest) events).conflicts =
        { taskId := task.id,
          reason := "Dependencies not satisfied: " ++
            String.intercalate ", " (checkDependencies events task).missing,
          suggestedTime := none } ::
          (schedulePass settings now rest events).conflicts ∧
      (schedulePass settings now (task :: rest) events).events =
        (schedulePass settings now rest events).events := by
  have hsat := (checkDependencies_unsatisfied hdep habsent).1
  have hst := @scheduleTask_unsatisfied settings events now task hsat
  have hfail : (scheduleTask settings events now task).success = false := by rw [hst]
  rw [schedulePass_cons_failure hfail]
  refine ⟨hst, rfl, rfl, ?_, rfl⟩
  rw [hst]
  rfl

/-- Witness for `scheduleTask_missing_dependency` at the concrete
fixture. -/
theorem scheduleTask_missing_dependency_witness :
    ("a" ∈ taskWithDeps.dependencies.getD [] ∧
        (∀ ev ∈ ([] : List CalendarEvent), ¬ev.taskId = some "a")) ∧
      scheduleTask exampleSettings [] 0 taskWithDeps =
        { success := false, start := none, stop := none, confidence := JsNum.ofInt 0,
          reason := some ("Dependencies not satisfied: " ++
            String.intercalate ", " (checkDependencies [] taskWithDeps).missing),
          suggestedTime := none } :=
  ⟨⟨by decide, by intro ev hev; simp at hev⟩,
   (scheduleTask_missing_dependency exampleSettings [] 0 taskWithDeps [] "a" (by decide)
     (by intro ev hev; simp at hev)).1⟩

/-- Full inversion of a successful `scheduleTask`: the committed start lies
on the 15-minute grid of some searched day range, the padded interval fits
in that range, and it passed the conflict test against the events current
at the call. -/
theorem scheduleTask_success_slot {settings : CalendarSettings}
    {events : List CalendarEvent} {now : Nat} {task : Task}
    (h : (scheduleTask settings events now task).success = true) :
    ∃ s c k,
      (scheduleTask settings events now task).start = some s ∧
      (scheduleTask settings events now task).stop = some (s + task.estimatedDuration) ∧
      findConflicts events s (s + task.estimatedDuration + settings.bufferTime) = [] ∧
      (c = (calculateSchedulingWindow now task).start ∨
        (dayStart (calculateSchedulingWindow now task).start < c ∧ c = dayStart c)) ∧
      s = dayRangeStart settings c + 15 * k ∧
      s + task.estimatedDuration + settings.bufferTime ≤
        dayRangeEnd settings (calculateSchedulingWindow now task).stop c := by
  obtain ⟨slot, hmem, h1, h2⟩ := scheduleTask_success_spec h
  obtain ⟨c, hc, _, _, hmem2⟩ := mem_findAvailableSlots hmem
  obtain ⟨k, hk1, hk2, _, _, hk5, hconf⟩ := mem_findSlotsInRange hmem2
  exact ⟨slot.start, c, k, h1, by rw [h2, hk2], hconf, hc, hk1, hk5⟩

/-- Two flexible 30-minute deadline-free tasks scheduled in sequence from
an empty calendar with a 15-minute buffer: when the second placement does
not precede the first, it starts at least 45 minutes later. -/
theorem schedulePass_two_buffer (settings : CalendarSettings) (now : Nat)
    (u v : Task) (p1 p2 : ScheduledTask)
    (hbuf : settings.bufferTime = 15)
    (hdu : u.estimatedDuration = 30) (hdv : v.estimatedDuration = 30)
    (hdlu : u.deadline = none) (hdlv : v.deadline = none)
    (hcu : u.createdAt ≤ now) (hcv : v.createdAt ≤ now)
    (hres : (schedulePass settings now [u, v] []).scheduledTasks = [p1, p2])
    (horder : p1.start ≤ p2.start) :
    p1.start + 45 ≤ p2.start := by
  have hwu : calculateSchedulingWindow now u = ⟨now, addDays now 14⟩ := by
    have hstart : (if u.createdAt < now then now else u.createdAt) = now := by
      split <;> omega
    simp [calculateSchedulingWindow, hdlu, hstart]
  have hwv : calculateSchedulingWindow now v = ⟨now, addDays now 14⟩ := by
    have hstart : (if v.createdAt < now then now else v.createdAt) = now := by
      split <;> omega
    simp [calculateSchedulingWindow, hdlv, hstart]
  by_cases hs1 : (scheduleTask settings [] now u).success = true
  case neg =>
    exfalso
    rw [Bool.not_eq_true] at hs1
    rw [schedulePass_cons_failure hs1] at hres
    have hres' : (schedulePass settings now [v] []).scheduledTasks = [p1, p2] := hres
    have hcount := schedulePass_counts settings now [v] []
    rw [hres'] at hcount
    simp at hcount
    omega
  case pos =>
  obtain ⟨s1, c1, k1, hstart1, hstop1, _, hcdisj1, hgrid1, hre1⟩ :=
    scheduleTask_success_slot hs1
  have hs0 : (scheduleTask settings [] now u).start.getD 0 = s1 := by rw [hstart1]; rfl
  have he0 : (scheduleTask settings [] now u).stop.getD 0 = s1 + u.estimatedDuration := by
    rw [hstop1]; rfl
  rw [schedulePass_cons_success hs1, hs0, he0] at hres
  have hres1 : (⟨u.id, s1, s1 + u.estimatedDuration,
      (scheduleTask settings [] now u).confidence⟩ : ScheduledTask) ::
      (schedulePass settings now [v]
        ([] ++ [commitEvent u s1 (s1 + u.estimatedDuration)])).scheduledTasks =
      [p1, p2] := hres
  rw [List.nil_append] at hres1
  injection hres1 with hp1 hrest
  by_cases hs2 : (scheduleTask settings [commitEvent u s1 (s1 + u.estimatedDuration)]
      now v).success = true
  case neg =>
    exfalso
    rw [Bool.not_eq_true] at hs2
    rw [schedulePass_cons_failure hs2] at hrest
    have hrest' : (schedulePass settings now []
        [commitEvent u s1 (s1 + u.estimatedDuration)]).scheduledTasks = [p2] := hrest
    simp [schedulePass] at hrest'
  case pos =>
  obtain ⟨s2, c2, k2, hstart2, hstop2, hconf2, hcdisj2, hgrid2, hre2⟩ :=
    scheduleTask_success_slot hs2
  have hs0' : (scheduleTask settings [commitEvent u s1 (s1 + u.estimatedDuration)]
      now v).start.getD 0 = s2 := by rw [hstart2]; rfl
  have he0' : (scheduleTask settings [commitEvent u s1 (s1 + u.estimatedDuration)]
      now v).stop.getD 0 = s2 + v.estimatedDuration := by rw [hstop2]; rfl
  rw [schedulePass_cons_success hs2, hs0', he0'] at hrest
  have hrest1 : (⟨v.id, s2, s2 + v.estimatedDuration,
      (scheduleTask settings
        [commitEvent u s1 (s1 + u.estimatedDuration)] now v).confidence⟩ :
      ScheduledTask) :: [] = [p2] := hrest
  injection hrest1 with hp2 _
  rw [← hp1, ← hp2] at horder ⊢
  have horder' : s1 ≤ s2 := horder
  show s1 + 45 ≤ s2
  have hover := findConflicts_eq_nil hconf2
    (commitEvent u s1 (s1 + u.estimatedDuration)) (List.mem_singleton_self _)
  have hsep : s2 + 45 < s1 ∨ s1 + 30 < s2 := by
    unfold overlapsEvent isWithinInterval commitEvent at hover
    simp only [Bool.or_eq_false_iff, Bool.and_eq_false_iff, decide_eq_false_iff_not,
      Nat.not_le] at hover
    rw [hdu] at hover
    rw [hdv, hbuf] at hover
    omega
  have hre1' : s1 + 45 ≤ dayRangeEnd settings (addDays now 14) c1 := by
    have h := hre1
    rw [hdu, hbuf, hwu] at h
    have h2 : s1 + 30 + 15 ≤ dayRangeEnd settings (addDays now 14) c1 := h
    omega
  have hre2' : s2 + 45 ≤ dayRangeEnd settings (addDays now 14) c2 := by
    have h := hre2
    rw [hdv, hbuf, hwv] at h
    have h2 : s2 + 30 + 15 ≤ dayRangeEnd settings (addDays now 14) c2 := h
    omega
  have hcd1 : c1 = now ∨ (dayStart now < c1 ∧ c1 = dayStart c1) := by
    rw [hwu] at hcdisj1
    exact hcdisj1
  have hcd2 : c2 = now ∨ (dayStart now < c2 ∧ c2 = dayStart c2) := by
    rw [hwv] at hcdisj2
    exact hcdisj2
  clear hre1 hre2 hcdisj1 hcdisj2 hres hrest horder
  have hA1 := dayRangeStart_ge settings c1
  have hA2 := dayRangeStart_ge settings c2
  have hB1 := dayRangeEnd_le settings (addDays now 14) c1
  have hB2 := dayRangeEnd_le settings (addDays now 14) c2
  have hD1 := dayStart_le c1
  have hD2 := dayStart_le c2
  rcases hcd1 with rfl | ⟨hlt1, hds1⟩
  · rcases hcd2 with rfl | ⟨hlt2, hds2⟩
    · omega
    · have hstep : dayStart c1 + 1440 ≤ dayStart c2 := by
        apply dayStart_step
        rw [← hds2]
        exact hlt2
      omega
  · rcases hcd2 with rfl | ⟨hlt2, hds2⟩
    · have hstep : dayStart c2 + 1440 ≤ dayStart c1 := by
        apply dayStart_step
        rw [← hds1]
        exact hlt1
      omega
    · rcases Nat.lt_trichotomy c1 c2 with hcc | hcc | hcc
      · have hstep : dayStart c1 + 1440 ≤ dayStart c2 := by
          apply dayStart_step
          rw [hds1, hds2] at hcc
          exact hcc
        omega
      · subst hcc
        omega
      · have hstep : dayStart c2 + 1440 ≤ dayStart c1 := by
          apply dayStart_step
          rw [hds1, hds2] at hcc
          exact hcc
        omega

set_option maxRecDepth 5000 in
/-- C9, counterexample: with buffer 15, no deadlines and two flexible
30-minute items and nothing else on the calendar, the second-scheduled item
can be committed BEFORE the first: ranked first, the high-priority item is
placed next morning (start 7860) for its morning bonus, and the
low-priority item then takes the afternoon slot of the current day (start
6540) — so the second item's start is not 45 minutes (nor any amount)
after the first item's start. -/
theorem buffer_separation_counterexample :
    afternoonSettings.bufferTime = 15 ∧
      (∀ t ∈ [taskHighPri, taskLowPri],
        t.isFlexible = true ∧ t.estimatedDuration = 30 ∧ t.deadline = none ∧
          t.createdAt ≤ 6540) ∧
      (scheduleAllTasks afternoonSettings [] [taskHighPri, taskLowPri] 6540).1.scheduledTasks.map
          (fun p => (p.taskId, p.start)) = [("high", 7860), ("low", 6540)] ∧
      ¬(7860 + 45 ≤ 6540) := by
  decide

/-- C9, amended: with a 15-minute buffer, two flexible 30-minute
deadline-free items (created no later than "now") scheduled in sequence
into an empty calendar, whenever the second item's committed start does not
precede the first item's committed start it is at least 45 minutes
(30 duration + 15 buffer) after it, never less.  (The second item may
instead be placed strictly before the first, as the counterexample
shows.) -/
theorem scheduleAllTasks_buffer_separation (settings : CalendarSettings) (now : Nat)
    (t1 t2 : Task) (p1 p2 : ScheduledTask)
    (hbuf : settings.bufferTime = 15)
    (hf1 : t1.isFlexible = true) (hf2 : t2.isFlexible = true)
    (hd1 : t1.estimatedDuration = 30) (hd2 : t2.estimatedDuration = 30)
    (hdl1 : t1.deadline = none) (hdl2 : t2.deadline = none)
    (hc1 : t1.createdAt ≤ now) (hc2 : t2.createdAt ≤ now)
    (hres : (scheduleAllTasks settings [] [t1, t2] now).1.scheduledTasks = [p1, p2])
    (horder : p1.start ≤ p2.start) :
    p1.start + 45 ≤ p2.start := by
  have hsort : prioritizeTasks now [t1, t2] = [t1, t2] ∨
      prioritizeTasks now [t1, t2] = [t2, t1] := by
    by_cases hk : sortScore now [t1, t2] t2 ≤ sortScore now [t1, t2] t1
    · exact Or.inl (by simp [prioritizeTasks, stableSortByScore, insertByScore, hk])
    · exact Or.inr (by simp [prioritizeTasks, stableSortByScore, insertByScore, hk])
  have hres' : (schedulePass settings now
      ((prioritizeTasks now [t1, t2]).filter fun task => task.isFlexible)
      []).scheduledTasks = [p1, p2] := hres
  rcases hsort with hs | hs
  · rw [hs] at hres'
    simp only [List.filter_cons, hf1, hf2, if_true, List.filter_nil] at hres'
    exact schedulePass_two_buffer settings now t1 t2 p1 p2 hbuf hd1 hd2 hdl1 hdl2
      hc1 hc2 hres' horder
  · rw [hs] at hres'
    simp only [List.filter_cons, hf1, hf2, if_true, List.filter_nil] at hres'
    exact schedulePass_two_buffer settings now t2 t1 p1 p2 hbuf hd2 hd1 hdl2 hdl1
      hc2 hc1 hres' horder

set_option maxRecDepth 2000 in
/-- Witness for `scheduleAllTasks_buffer_separation` at the concrete
fixtures: the two medium tasks land at 6300 and 6345 = 6300 + 45. -/
theorem scheduleAllTasks_buffer_separation_witness :
    (exampleSettings.bufferTime = 15 ∧ taskMedium1.isFlexible = true ∧
        taskMedium2.isFlexible = true ∧ taskMedium1.estimatedDuration = 30 ∧
        taskMedium2.estimatedDuration = 30 ∧ taskMedium1.deadline = none ∧
        taskMedium2.deadline = none ∧ taskMedium1.createdAt ≤ 6300 ∧
        taskMedium2.createdAt ≤ 6300 ∧
        (scheduleAllTasks exampleSettings [] [taskMedium1, taskMedium2]
            6300).1.scheduledTasks =
          [⟨"m1", 6300, 6330, ⟨7, 10⟩⟩, ⟨"m2", 6345, 6375, ⟨7, 10⟩⟩] ∧
        (⟨"m1", 6300, 6330, ⟨7, 10⟩⟩ : ScheduledTask).start ≤
          (⟨"m2", 6345, 6375, ⟨7, 10⟩⟩ : ScheduledTask).start) ∧
      (⟨"m1", 6300, 6330, ⟨7, 10⟩⟩ : ScheduledTask).start + 45 ≤
        (⟨"m2", 6345, 6375, ⟨7, 10⟩⟩ : ScheduledTask).start :=
  ⟨⟨rfl, rfl, rfl, rfl, rfl, rfl, rfl, by decide, by decide, by decide, by decide⟩,
   scheduleAllTasks_buffer_separation exampleSettings 6300 taskMedium1 taskMedium2
     ⟨"m1", 6300, 6330, ⟨7, 10⟩⟩ ⟨"m2", 6345, 6375, ⟨7, 10⟩⟩ rfl rfl rfl rfl rfl rfl
     rfl (by decide) (by decide) (by decide) (by decide)⟩

end Scheduler
